import Mathlib

/-!
Verification of the client-side RBAC authorization model of the
`placement_frontend` repository: the API client (`src/lib/api.ts`),
the session store (`src/contexts/AuthContext.tsx`), the route guard
(`ProtectedRoute`), and the role-permission assignment screen
(`src/pages/RolePermissions.tsx`).  Each definition is a shallow
embedding of the corresponding TypeScript function; asynchronous
functions become state transformers taking the outcome of each API
round trip as an explicit argument.
-/

namespace Placement

/-- The `Role` record as declared in `src/lib/api.ts`. -/
structure Role where
  id : Nat
  name : String
  description : String
  active : Bool
  created_at : String
  updated_at : String
deriving Repr, DecidableEq

/-- The `Permission` record as declared in `src/lib/api.ts`. -/
structure Permission where
  id : Nat
  name : String
  description : String
  created_at : String
  updated_at : String
deriving Repr, DecidableEq

/-- The `RolePermission` assignment record as declared in `src/lib/api.ts`:
a role↔permission join row carrying denormalized copies of both ends. -/
structure RolePermission where
  id : Nat
  role_id : Nat
  permission_id : Nat
  role : Role
  permission : Permission
  created_at : String
  updated_at : String
deriving Repr, DecidableEq

/-- The `User` record as declared in `src/contexts/AuthContext.tsx`. -/
structure User where
  id : Nat
  name : String
  email : String
  role_id : Nat
  role : Role
  active : Bool
  created_at : String
  updated_at : String
deriving Repr, DecidableEq

/-- The response envelope `{success, route, message, data?, error?}` of
`src/lib/api.ts`. -/
structure ApiResponse (T : Type) where
  success : Bool
  route : String
  message : String
  data : Option T
  error : Option String
deriving Repr, DecidableEq

/-- Outcome of one `api.*` call as observed by a caller: either the parsed
envelope (the promise resolved) or a thrown `Error` carrying its message
(transport failure or non-2xx status, see `ApiClient.request`). -/
abbrev ApiOutcome (T : Type) := Except String (ApiResponse T)

/-- The dynamic payload of a `/rolepermissions/role/:id` response.  The code
checks `Array.isArray(response.data)` at runtime, so the payload is either a
genuine array of rows or some non-array value. -/
inductive PermData where
  | rows (rs : List RolePermission)
  | nonArray
deriving Repr, DecidableEq

/-- Payload of `/userdata`: an object that may or may not carry a `user`
field (the code tests `response.data?.user`). -/
structure UserPayload where
  user : Option User
deriving Repr, DecidableEq

/-! ## Session store (`src/contexts/AuthContext.tsx`)

The provider's React state is `user`, `permissions` and `loading`; each
`async` handler is embedded as a state transformer parameterized by the
outcomes of the API calls it performs. -/

/-- The session store state held by `AuthProvider`. -/
structure AuthState where
  user : Option User
  permissions : List String
  loading : Bool
deriving Repr, DecidableEq

/-- The `useState` initial values: `user = null`, `permissions = []`,
`loading = true`. -/
def initialAuthState : AuthState := ⟨none, [], true⟩

/-- The `fetchPermissions(roleId)` from `AuthContext.tsx`: on a resolved
envelope with `success && Array.isArray(data)` it replaces `permissions`
with the mapped permission names; on any other resolved envelope it leaves
state untouched; on a thrown error it clears `permissions` to `[]`.
`roleId` only selects the URL and does not affect the local update. -/
def fetchPermissions (roleId : Nat) (o : ApiOutcome PermData) (s : AuthState) :
    AuthState :=
  match o with
  | .ok r =>
    match r.success, r.data with
    | true, some (.rows rs) =>
        { s with permissions := rs.map (fun rp => rp.permission.name) }
    | _, _ => s
  | .error _ => { s with permissions := [] }

/-- The `fetchUserData()` from `AuthContext.tsx`: fetches `/userdata`; when
`success && data?.user`, stores the user and runs `fetchPermissions` on the
user's `role_id`; in every case `loading` ends up `false` (the `finally`). -/
def fetchUserData (uo : ApiOutcome UserPayload) (po : ApiOutcome PermData)
    (s : AuthState) : AuthState :=
  match uo with
  | .ok r =>
    match r.success, r.data with
    | true, some ⟨some u⟩ =>
        let s1 := { s with user := some u }
        let s2 := fetchPermissions u.role_id po s1
        { s2 with loading := false }
    | _, _ => { s with loading := false }
  | .error _ => { s with loading := false }

/-- The `login(email, password)` from `AuthContext.tsx`: posts `/login`; on a
resolved envelope with `success` it re-runs `fetchUserData` and returns
`true`; on a resolved envelope without `success`, or on a thrown error, it
returns `false` and leaves the state unchanged (only a toast is shown). -/
def login (lo : ApiOutcome Unit) (uo : ApiOutcome UserPayload)
    (po : ApiOutcome PermData) (s : AuthState) : Bool × AuthState :=
  match lo with
  | .ok r =>
    if r.success then (true, fetchUserData uo po s) else (false, s)
  | .error _ => (false, s)

/-- The `logout()` from `AuthContext.tsx`: `await api.get('/logout')` and then
`setUser(null); setPermissions([])` — both inside the `try`.  When the call
throws, the `catch` only logs, so the local identity and permission set are
NOT cleared. -/
def logout (o : ApiOutcome Unit) (s : AuthState) : AuthState :=
  match o with
  | .ok _ => { s with user := none, permissions := [] }
  | .error _ => s

/-- The `refreshPermissions()` from `AuthContext.tsx`: guarded by the JS
truthiness of `user?.role_id` (so a `role_id` of `0` also skips). -/
def refreshPermissions (o : ApiOutcome PermData) (s : AuthState) : AuthState :=
  match s.user with
  | some u => if u.role_id ≠ 0 then fetchPermissions u.role_id o s else s
  | none => s

/-- The `hasPermission(permission)`: exact membership in `permissions`. -/
def hasPermission (s : AuthState) (p : String) : Bool :=
  s.permissions.contains p

/-- The `hasRole(roleName)`: `user?.role?.name === roleName` (false when no
user is present). -/
def hasRole (s : AuthState) (r : String) : Bool :=
  match s.user with
  | some u => u.role.name == r
  | none => false

/-- The `isAdmin()`: `hasRole('Super Admin') || hasRole('Admin')`. -/
def isAdmin (s : AuthState) : Bool :=
  hasRole s "Super Admin" || hasRole s "Admin"

/-! ## API client (`src/lib/api.ts`) -/

/-- Result of parsing a response body: either a parsed envelope or a JSON
parse failure whose thrown error carries a message. -/
inductive BodyParse (T : Type) where
  | parsed (r : ApiResponse T)
  | malformed (msg : String)
deriving Repr, DecidableEq

/-- What one `fetch` of `ApiClient.request` produced: either the promise
rejected (an `Error` with a message), or a reply with an HTTP status, a
status text, the `message` field of the error body when it parsed to one
(`errorData.message`), and the parse of the success body. -/
inductive FetchOutcome (T : Type) where
  | netError (msg : String)
  | reply (status : Nat) (statusText : String) (errField : Option String)
      (body : BodyParse T)
deriving Repr, DecidableEq

/-- The `response.ok` per the fetch specification: status in 200–299. -/
def statusOk (status : Nat) : Bool :=
  decide (200 ≤ status ∧ status ≤ 299)

/-- The message thrown for a non-ok, non-429 status:
`errorData.message || HTTP status: statusText` with JS falsiness of the
empty string. -/
def httpErrorMessage (status : Nat) (statusText : String)
    (errField : Option String) : String :=
  match errField with
  | some m => if m == "" then "HTTP " ++ toString status ++ ": " ++ statusText else m
  | none => "HTTP " ++ toString status ++ ": " ++ statusText

/-- The `ApiClient.request` from `src/lib/api.ts`: a 2xx reply returns the
parsed envelope verbatim; a 429 throws the fixed rate-limit message; any
other non-2xx throws `errorData.message` or the HTTP fallback; a rejected
fetch rethrows the error's message. -/
def request (T : Type) (o : FetchOutcome T) : ApiOutcome T :=
  match o with
  | .netError msg => .error msg
  | .reply status statusText errField body =>
    if statusOk status then
      match body with
      | .parsed r => .ok r
      | .malformed msg => .error msg
    else if status == 429 then
      .error "Rate limit exceeded. Please try again later."
    else
      .error (httpErrorMessage status statusText errField)

/-- A toast payload as built by `handleRateLimit`. -/
structure ToastMsg where
  title : String
  description : String
deriving Repr, DecidableEq

/-- Whether `needle` occurs as a contiguous run inside `hay`. -/
def subListB (needle : List Char) : List Char → Bool
  | [] => needle.isPrefixOf []
  | c :: rest => needle.isPrefixOf (c :: rest) || subListB needle rest

/-- The `error.message.includes(needle)` — substring containment. -/
def strIncludes (hay needle : String) : Bool :=
  subListB needle.data hay.data

/-- The `handleRateLimit` from `src/lib/api.ts`: classifies an error message —
one containing `'Rate limit'` becomes the dedicated rate-limit toast,
everything else the generic error toast carrying the message. -/
def handleRateLimit (msg : String) : ToastMsg :=
  if strIncludes msg "Rate limit" then
    ⟨"Rate Limit Exceeded", "Please wait a moment before trying again."⟩
  else
    ⟨"Error", msg⟩

/-! ## Route guard (`ProtectedRoute`, third file inside
`src/pages/RolePermissions.tsx`) -/

/-- The props of `ProtectedRoute`. -/
structure RouteReqs where
  requiredPermission : Option String
  requiredRole : Option String
  requireAdmin : Bool
deriving Repr, DecidableEq

/-- JS truthiness of an optional string prop: absent and `''` are falsy. -/
def strTruthy : Option String → Option String
  | some s => if s == "" then none else some s
  | none => none

/-- What `ProtectedRoute` renders. -/
inductive RouteOutcome where
  | loadingView
  | redirectLogin (fromPath : String)
  | deniedAdmin
  | deniedRole (r : String)
  | deniedPermission (p : String)
  | content
deriving Repr, DecidableEq

/-- The trailing `requiredPermission` check of `ProtectedRoute`. -/
def permissionCheck (s : AuthState) (reqs : RouteReqs) : RouteOutcome :=
  match strTruthy reqs.requiredPermission with
  | some p => if !(hasPermission s p) then .deniedPermission p else .content
  | none => .content

/-- The `requiredRole` check of `ProtectedRoute`, falling through to the
permission check. -/
def roleCheck (s : AuthState) (reqs : RouteReqs) : RouteOutcome :=
  match strTruthy reqs.requiredRole with
  | some r => if !(hasRole s r) then .deniedRole r else permissionCheck s reqs
  | none => permissionCheck s reqs

/-- The `ProtectedRoute` itself: loading spinner while `loading`; redirect to
`/login` remembering the current location when no user; then the admin,
role and permission checks in order; otherwise the children. -/
def protectedRoute (s : AuthState) (loc : String) (reqs : RouteReqs) :
    RouteOutcome :=
  if s.loading then .loadingView
  else if s.user.isNone then .redirectLogin loc
  else if reqs.requireAdmin && !(isAdmin s) then .deniedAdmin
  else roleCheck s reqs

/-- The session-store states reachable from the initial provider state via
the handlers that write it: the mount-time `fetchUserData`, `login`,
`logout` and `refreshPermissions` (`register` never touches this state). -/
inductive Reachable : AuthState → Prop where
  | init : Reachable initialAuthState
  | fetchUser {s} (uo : ApiOutcome UserPayload) (po : ApiOutcome PermData) :
      Reachable s → Reachable (fetchUserData uo po s)
  | doLogin {s} (lo : ApiOutcome Unit) (uo : ApiOutcome UserPayload)
      (po : ApiOutcome PermData) :
      Reachable s → Reachable (login lo uo po s).2
  | doLogout {s} (o : ApiOutcome Unit) :
      Reachable s → Reachable (logout o s)
  | doRefresh {s} (o : ApiOutcome PermData) :
      Reachable s → Reachable (refreshPermissions o s)

/-! ## Role-permission assignment screen
(`RolePermissions` component, `src/pages/RolePermissions.tsx`) -/

/-- The local React state of the `RolePermissions` screen (the pieces the
toggle protocol touches; `roles`, `permissions` and the loading flags are
carried unchanged). -/
structure ScreenState where
  roles : List Role
  permissions : List Permission
  rolePermissions : List RolePermission
  selectedRole : String
  changes : List Nat
deriving Repr, DecidableEq

/-- The `hasRolePermission(permissionId)`: membership of the permission in the
screen's current assignment list. -/
def hasRolePermission (st : ScreenState) (pid : Nat) : Bool :=
  st.rolePermissions.any (fun rp => rp.permission_id == pid)

/-- The `fetchRolePermissions(roleId)` of the screen: replaces the local
assignment list only on `success && Array.isArray(data)`; a thrown error or
any other envelope leaves the list untouched (only a toast is shown). -/
def fetchRolePermissionsScreen (o : ApiOutcome PermData) (st : ScreenState) :
    ScreenState :=
  match o with
  | .ok r =>
    match r.success, r.data with
    | true, some (.rows rs) => { st with rolePermissions := rs }
    | _, _ => st
  | .error _ => st

/-- The `parseInt` applied to the role-id strings the screen produces
(every `selectedRole` is a `role.id.toString()` decimal numeral): `none`
models `NaN`. -/
def parseIntNat (s : String) : Option Nat :=
  if s.data ≠ [] && s.data.all Char.isDigit then
    some (s.data.foldl (fun n c => n * 10 + (c.toNat - 48)) 0)
  else none

/-- One HTTP call issued by the toggle protocol, with its request payload. -/
inductive ApiCall where
  | grantRP (role_id : Option Nat) (permission_id : Nat)
  | revokeRP (role_id : Option Nat) (permission_id : Nat)
  | fetchRP (roleId : String)
deriving Repr, DecidableEq

/-- The `new Set([...prev, permissionId])` on the `changes` set. -/
def insertChange (pid : Nat) (cs : List Nat) : List Nat :=
  if cs.contains pid then cs else cs ++ [pid]

/-- The `togglePermission(permissionId)` from `src/pages/RolePermissions.tsx`,
returning the new screen state together with the list of API calls issued,
in order.  Guard: `!selectedRole || !hasPermission('permission.assign')`
returns without any call.  Otherwise membership is re-read from the current
state, one delete or one create is issued, and — when that call resolves —
`fetchRolePermissions(selectedRole)` re-syncs the list and the permission id
is added to `changes`; a thrown mutation error stops before the refetch. -/
def togglePermission (st : ScreenState) (canAssign : Bool) (pid : Nat)
    (mutOutcome : ApiOutcome Unit) (refetchOutcome : ApiOutcome PermData) :
    ScreenState × List ApiCall :=
  if st.selectedRole == "" || !canAssign then (st, [])
  else
    let member := hasRolePermission st pid
    let rid := parseIntNat st.selectedRole
    let mutCall := if member then ApiCall.revokeRP rid pid
                   else ApiCall.grantRP rid pid
    match mutOutcome with
    | .error _ => (st, [mutCall])
    | .ok _ =>
        let st1 := fetchRolePermissionsScreen refetchOutcome st
        let st2 := { st1 with changes := insertChange pid st1.changes }
        (st2, [mutCall, ApiCall.fetchRP st.selectedRole])

/-! ## Idealized assignment backend

Modelled from the spec: the external `/rolepermissions` API (spec §6) —
`POST` grants `{role_id, permission_id}`, `DELETE` revokes it, and
`GET /rolepermissions/role/:roleId` lists the assignments of one role. The
server itself is not part of this repository; this is the §6 boundary
contract, used to state the round-trip property of the toggle protocol. -/

/-- The backend's assignment table: the set of `(role_id, permission_id)`
pairs that currently exist. -/
structure ServerState where
  assignments : List (Nat × Nat)
deriving Repr, DecidableEq

/-- A placeholder denormalized row the backend returns for an assignment:
only `role_id`/`permission_id` drive the client logic under verification. -/
def mkRow (rid pid : Nat) : RolePermission :=
  { id := 0, role_id := rid, permission_id := pid,
    role := ⟨rid, "", "", true, "", ""⟩,
    permission := ⟨pid, "", "", "", ""⟩,
    created_at := "", updated_at := "" }

/-- Whether the backend currently holds the `(rid, pid)` assignment. -/
def serverHas (sv : ServerState) (rid pid : Nat) : Bool :=
  sv.assignments.any (fun a => a.1 == rid && a.2 == pid)

/-- Grant: create the assignment (no-op when it already exists). -/
def serverGrant (sv : ServerState) (rid pid : Nat) : ServerState :=
  if serverHas sv rid pid then sv
  else ⟨(rid, pid) :: sv.assignments⟩

/-- Revoke: delete the assignment. -/
def serverRevoke (sv : ServerState) (rid pid : Nat) : ServerState :=
  ⟨sv.assignments.filter (fun a => !(a.1 == rid && a.2 == pid))⟩

/-- The rows `GET /rolepermissions/role/:rid` returns. -/
def serverRows (sv : ServerState) (rid : Nat) : List RolePermission :=
  (sv.assignments.filter (fun a => a.1 == rid)).map (fun a => mkRow a.1 a.2)

/-- A successful envelope with the given payload. -/
def okEnv (T : Type) (d : Option T) : ApiResponse T :=
  ⟨true, "", "", d, none⟩

/-- One complete, successful toggle round against the idealized backend:
the mutation the client issues (revoke when the permission is currently in
the local list, grant otherwise) is applied to the server, and the client's
refetch then observes the server's post-mutation rows for the selected
role. -/
def toggleRound (sv : ServerState) (st : ScreenState) (pid : Nat) :
    ServerState × ScreenState :=
  if st.selectedRole == "" then (sv, st)
  else
    let rid := (parseIntNat st.selectedRole).getD 0
    let sv1 := if hasRolePermission st pid then serverRevoke sv rid pid
               else serverGrant sv rid pid
    let st1 := (togglePermission st true pid (.ok (okEnv Unit none))
        (.ok (okEnv PermData (some (.rows (serverRows sv1 rid)))))).1
    (sv1, st1)

/-! ## Permission-gated render output

Render skeletons of the permission-gated affordances, straight from the
JSX conditionals of the list screens. -/

/-- One interactive affordance present in render output.  `action` is the
permission name it declares a dependency on; `isDisabled` records whether
it was rendered with a `disabled` prop. -/
structure Affordance where
  action : String
  isDisabled : Bool
deriving Repr, DecidableEq

/-- The permission-gated affordances of the `Users` page
(`src/pages/Users.tsx`): the Add-User button (line 106) and, per row, the
Edit item, the Activate/Deactivate item (both behind `user.update`) and the
Delete item (behind `user.delete`).  Each is omitted — not rendered at all —
when its `hasPermission` check fails. -/
def usersPageAffordances (can : String → Bool) (rows : List User) :
    List Affordance :=
  (if can "user.create" then [⟨"user.create", false⟩] else [])
  ++ rows.flatMap (fun _ =>
      (if can "user.update" then [⟨"user.update", false⟩] else [])
      ++ (if can "user.update" then [⟨"user.update", false⟩] else [])
      ++ (if can "user.delete" then [⟨"user.delete", false⟩] else []))

/-- The permission-gated affordances of the `Roles` page
(`src/pages/Roles.tsx`): the Add-Role button (line 105) and, per row, the
Edit item, the Activate/Deactivate item (both behind `role.update`, lines
244–250) and the Delete item (line 253, behind `role.delete` and
additionally suppressed for rows named `Super Admin` or `Admin`).  Each is
omitted — not rendered at all — when its check fails. -/
def rolesPageAffordances (can : String → Bool) (rows : List Role) :
    List Affordance :=
  (if can "role.create" then [⟨"role.create", false⟩] else [])
  ++ rows.flatMap (fun r =>
      (if can "role.update" then [⟨"role.update", false⟩] else [])
      ++ (if can "role.update" then [⟨"role.update", false⟩] else [])
      ++ (if can "role.delete" && !(["Super Admin", "Admin"].contains r.name)
          then [⟨"role.delete", false⟩] else []))

/-- The permission-gated affordances of the `Permissions` page (the second
document inside `src/pages/RolePermissions.tsx`): the Add-Permission button
(line 436) and, per row, the Delete item (line 553).  Each is omitted when
its check fails. -/
def permissionsPageAffordances (can : String → Bool)
    (rows : List Permission) : List Affordance :=
  (if can "permission.create" then [⟨"permission.create", false⟩] else [])
  ++ rows.flatMap (fun _ =>
      if can "permission.delete" then [⟨"permission.delete", false⟩] else [])

/-- The per-permission toggle checkboxes of the role-permission matrix
(`src/pages/RolePermissions.tsx` lines 263–271): rendered for every listed
permission whenever a role is selected, with
`disabled={!hasPermission('permission.assign')}` — present but disabled
when the viewer lacks `permission.assign`, not omitted. -/
def rolePermissionsCheckboxes (can : String → Bool) (perms : List Permission) :
    List Affordance :=
  perms.map (fun _ => ⟨"permission.assign", !(can "permission.assign")⟩)

/-! ## Concrete sample data used by witnesses and counterexamples -/

/-- A sample non-admin role. -/
def sampleRole : Role := ⟨3, "Manager", "Manages things", true, "", ""⟩

/-- A sample permission row. -/
def samplePermission : Permission := ⟨7, "user.read", "Read users", "", ""⟩

/-- A sample user holding `sampleRole`. -/
def sampleUser : User := ⟨1, "Alice", "alice@example.com", 3, sampleRole, true, "", ""⟩

/-- A sample `/rolepermissions/role/3` row granting `user.read`. -/
def sampleRow : RolePermission := ⟨11, 3, 7, sampleRole, samplePermission, "", ""⟩

/-- A session store state reached from the initial state by a successful
hydration: `/userdata` returns `sampleUser` and the permission fetch
returns one `user.read` row. -/
def sampleHydrated : AuthState :=
  fetchUserData (.ok (okEnv UserPayload (some ⟨some sampleUser⟩)))
    (.ok (okEnv PermData (some (.rows [sampleRow])))) initialAuthState

/-! ## Session store invariants -/

/-- The permission-resolution update never touches the stored user. -/
theorem fetchPermissions_user (rid : Nat) (o : ApiOutcome PermData)
    (s : AuthState) : (fetchPermissions rid o s).user = s.user := by
  unfold fetchPermissions
  cases o with
  | error e => rfl
  | ok r => dsimp only; split <;> rfl

/-- The permission-resolution update never touches the loading flag. -/
theorem fetchPermissions_loading (rid : Nat) (o : ApiOutcome PermData)
    (s : AuthState) : (fetchPermissions rid o s).loading = s.loading := by
  unfold fetchPermissions
  cases o with
  | error e => rfl
  | ok r => dsimp only; split <;> rfl

/-- Hydration always ends with `loading = false` (the `finally` block). -/
theorem fetchUserData_loading (uo : ApiOutcome UserPayload)
    (po : ApiOutcome PermData) (s : AuthState) :
    (fetchUserData uo po s).loading = false := by
  unfold fetchUserData
  cases uo with
  | error e => rfl
  | ok r => dsimp only; split <;> rfl

/-- The store invariant: a state with no identity has an empty permission
set, and a state still marked loading has neither identity nor
permissions. -/
def StoreInv (s : AuthState) : Prop :=
  (s.user = none → s.permissions = []) ∧
  (s.loading = true → s.user = none ∧ s.permissions = [])

/-- Hydration preserves the store invariant. -/
theorem storeInv_fetchUserData {s : AuthState} (uo : ApiOutcome UserPayload)
    (po : ApiOutcome PermData) (h : StoreInv s) :
    StoreInv (fetchUserData uo po s) := by
  obtain ⟨h1, _⟩ := h
  unfold fetchUserData
  cases uo with
  | error e => exact ⟨fun hu => h1 hu, fun hl => absurd hl (by simp)⟩
  | ok r =>
    obtain ⟨su, rt, rm, d, re⟩ := r
    cases su with
    | false => exact ⟨fun hu => h1 hu, fun hl => absurd hl (by simp)⟩
    | true =>
      cases d with
      | none => exact ⟨fun hu => h1 hu, fun hl => absurd hl (by simp)⟩
      | some pl =>
        obtain ⟨ou⟩ := pl
        cases ou with
        | none => exact ⟨fun hu => h1 hu, fun hl => absurd hl (by simp)⟩
        | some u =>
          dsimp only
          constructor
          · intro hu
            have hx := fetchPermissions_user u.role_id po { s with user := some u }
            rw [hx] at hu
            simp at hu
          · intro hl
            exact absurd hl (by simp)

/-- Login preserves the store invariant. -/
theorem storeInv_login {s : AuthState} (lo : ApiOutcome Unit)
    (uo : ApiOutcome UserPayload) (po : ApiOutcome PermData)
    (h : StoreInv s) : StoreInv (login lo uo po s).2 := by
  unfold login
  cases lo with
  | error e => exact h
  | ok r =>
    dsimp only
    by_cases hs : r.success = true
    · simp only [hs, if_true]
      exact storeInv_fetchUserData uo po h
    · simp only [Bool.not_eq_true] at hs
      simp only [hs, Bool.false_eq_true, if_false]
      exact h

/-- Logout preserves the store invariant. -/
theorem storeInv_logout {s : AuthState} (o : ApiOutcome Unit)
    (h : StoreInv s) : StoreInv (logout o s) := by
  unfold logout
  cases o with
  | error e => exact h
  | ok r => exact ⟨fun _ => rfl, fun _ => ⟨rfl, rfl⟩⟩

/-- Permission refresh preserves the store invariant. -/
theorem storeInv_refresh {s : AuthState} (o : ApiOutcome PermData)
    (h : StoreInv s) : StoreInv (refreshPermissions o s) := by
  unfold refreshPermissions
  cases hu : s.user with
  | none => exact h
  | some u =>
    dsimp only
    by_cases hr : u.role_id ≠ 0
    · rw [if_pos hr]
      constructor
      · intro hnone
        rw [fetchPermissions_user u.role_id o s, hu] at hnone
        simp at hnone
      · intro hl
        rw [fetchPermissions_loading u.role_id o s] at hl
        rcases h.2 hl with ⟨h3, _⟩
        rw [hu] at h3
        simp at h3
    · rw [if_neg hr]
      exact h

/-- Every reachable session store state satisfies the store invariant. -/
theorem reachable_storeInv {s : AuthState} (h : Reachable s) : StoreInv s := by
  induction h with
  | init => exact ⟨fun _ => rfl, fun _ => ⟨rfl, rfl⟩⟩
  | fetchUser uo po _ ih => exact storeInv_fetchUserData uo po ih
  | doLogin lo uo po _ ih => exact storeInv_login lo uo po ih
  | doLogout o _ ih => exact storeInv_logout o ih
  | doRefresh o _ ih => exact storeInv_refresh o ih

/-- C10: after every complete session store operation — i.e. in every
reachable store state — a null identity forces an empty resolved
permission set; no operation produces a state with no identity but a
non-empty permission set. -/
theorem no_identity_no_permissions {s : AuthState} (h : Reachable s)
    (hu : s.user = none) : s.permissions = [] :=
  (reachable_storeInv h).1 hu

/-- Witness for C10 at a concrete reachable state: logging out of a
successfully hydrated session leaves a null identity and an empty set. -/
theorem no_identity_no_permissions_witness :
    (logout (.ok (okEnv Unit none)) sampleHydrated).permissions = [] :=
  no_identity_no_permissions
    (Reachable.doLogout _ (Reachable.fetchUser _ _ Reachable.init)) rfl

/-- C4: in every reachable store state that is Anonymous (no identity) or
Hydrating (loading flag still set), every query predicate —
`hasPermission`, `hasRole` and `isAdmin` — returns false. -/
theorem predicates_false_when_not_authenticated {s : AuthState}
    (h : Reachable s) (hs : s.user = none ∨ s.loading = true) (p r : String) :
    hasPermission s p = false ∧ hasRole s r = false ∧ isAdmin s = false := by
  have hinv := reachable_storeInv h
  have hu : s.user = none := by
    rcases hs with hu | hl
    · exact hu
    · exact (hinv.2 hl).1
  have hp : s.permissions = [] := hinv.1 hu
  refine ⟨?_, ?_, ?_⟩
  · simp [hasPermission, hp]
  · simp [hasRole, hu]
  · simp [isAdmin, hasRole, hu]

/-- Witness for C4 at the initial (Hydrating) state. -/
theorem predicates_false_when_not_authenticated_witness :
    hasPermission initialAuthState "user.read" = false ∧
    hasRole initialAuthState "Admin" = false ∧
    isAdmin initialAuthState = false :=
  predicates_false_when_not_authenticated Reachable.init (Or.inr rfl)
    "user.read" "Admin"

/-- C8: for every store state, `isAdmin` is true exactly when
`hasRole "Super Admin"` or `hasRole "Admin"` holds, and `hasRole name` is
an exact string match against the current identity's role name. -/
theorem isAdmin_characterization (s : AuthState) :
    (isAdmin s = true ↔ hasRole s "Super Admin" = true ∨ hasRole s "Admin" = true)
    ∧ ∀ r, hasRole s r = true ↔ ∃ u, s.user = some u ∧ u.role.name = r := by
  constructor
  · simp [isAdmin]
  · intro r
    constructor
    · intro hb
      unfold hasRole at hb
      cases hu : s.user with
      | none => rw [hu] at hb; simp at hb
      | some u =>
        rw [hu] at hb
        exact ⟨u, rfl, by simpa using hb⟩
    · rintro ⟨v, hv, hr⟩
      unfold hasRole
      rw [hv]
      simpa using hr

/-- C1 (counterexample): logging out of a hydrated session while the
`/logout` call throws leaves the identity and the permission set fully
intact — the clear is not unconditional, and `hasPermission` still
returns true afterwards. -/
theorem logout_failure_keeps_state :
    logout (.error "Failed to fetch") sampleHydrated = sampleHydrated
    ∧ sampleHydrated.user = some sampleUser
    ∧ hasPermission (logout (.error "Failed to fetch") sampleHydrated)
        "user.read" = true := by
  refine ⟨rfl, rfl, ?_⟩
  decide

/-- C1 (amended): when the `/logout` call resolves (any 2xx envelope,
regardless of its `success` flag), `logout` clears the identity and the
permission set, every `hasPermission` is false afterwards, and a repeated
resolved logout is a no-op; when the call throws, the state is left
completely unchanged. -/
theorem logout_clears_on_api_success (s : AuthState) (r r2 : ApiResponse Unit)
    (e : String) :
    (logout (.ok r) s).user = none
    ∧ (logout (.ok r) s).permissions = []
    ∧ (∀ p, hasPermission (logout (.ok r) s) p = false)
    ∧ logout (.ok r2) (logout (.ok r) s) = logout (.ok r) s
    ∧ logout (.error e) s = s := by
  refine ⟨rfl, rfl, ?_, rfl, rfl⟩
  intro p
  simp [logout, hasPermission]

/-- C2 (counterexample): a permission fetch that resolves with a 2xx
envelope whose `success` flag is false leaves the previously resolved
permissions in place — the set is not cleared to empty on this failing
outcome. -/
theorem failed_envelope_keeps_stale_permissions :
    (fetchPermissions 3 (.ok ⟨false, "", "", none, none⟩) sampleHydrated).permissions
      = ["user.read"]
    ∧ (["user.read"] : List String) ≠ [] := by
  refine ⟨?_, by simp⟩
  decide

/-- C2 (amended): a thrown permission fetch (transport failure or non-2xx
status) clears the resolved set to empty; a resolved envelope whose
`success` flag is false or whose data is absent or not a list leaves the
previous set unchanged (stale data retained); a successful list envelope
replaces the set wholesale with exactly the permission names of the fetched
rows. -/
theorem fetchPermissions_failure_modes (rid : Nat) (s : AuthState) (e : String)
    (r : ApiResponse PermData) (rs : List RolePermission) :
    (fetchPermissions rid (.error e) s).permissions = []
    ∧ (r.success = false ∨ r.data = none ∨ r.data = some .nonArray →
        fetchPermissions rid (.ok r) s = s)
    ∧ (r.success = true → r.data = some (.rows rs) →
        (fetchPermissions rid (.ok r) s).permissions
          = rs.map (fun rp => rp.permission.name)) := by
  refine ⟨rfl, ?_, ?_⟩
  · intro hfail
    unfold fetchPermissions
    obtain ⟨su, rt, rm, d, re⟩ := r
    rcases hfail with hs | hd | hd
    · simp only at hs
      subst hs
      rfl
    · simp only at hd
      subst hd
      dsimp only
      cases su <;> rfl
    · simp only at hd
      subst hd
      dsimp only
      cases su <;> rfl
  · intro hs hd
    obtain ⟨su, rt, rm, d, re⟩ := r
    simp only at hs hd
    subst hs
    subst hd
    rfl

/-- Witness for C2's amended theorem at concrete inputs: a thrown fetch
clears, a `success:false` envelope retains, and a successful envelope with
one row resolves exactly that row's permission name. -/
theorem fetchPermissions_failure_modes_witness :
    (fetchPermissions 3 (.error "boom") sampleHydrated).permissions = []
    ∧ fetchPermissions 3 (.ok ⟨false, "", "", none, none⟩) sampleHydrated
        = sampleHydrated
    ∧ (fetchPermissions 3
        (.ok ⟨true, "", "", some (.rows [sampleRow]), none⟩)
        sampleHydrated).permissions = ["user.read"] := by
  refine ⟨(fetchPermissions_failure_modes 3 sampleHydrated "boom"
      ⟨false, "", "", none, none⟩ []).1,
    (fetchPermissions_failure_modes 3 sampleHydrated "boom"
      ⟨false, "", "", none, none⟩ []).2.1 (Or.inl rfl),
    ?_⟩
  have h3 := (fetchPermissions_failure_modes 3 sampleHydrated "boom"
      ⟨true, "", "", some (.rows [sampleRow]), none⟩ [sampleRow]).2.2 rfl rfl
  rw [h3]
  decide

/-- C3: the guard evaluates its requirements in a fixed first-match-wins
order — loading view while Hydrating; redirect to login (remembering the
requested location) when Anonymous; then the admin, role and permission
denials in that order; otherwise the protected content.  In particular an
authenticated non-admin with `requireAdmin` set is always shown the admin
denial, regardless of any `requiredPermission`. -/
theorem protectedRoute_first_match_wins (s : AuthState) (loc : String)
    (reqs : RouteReqs) :
    (s.loading = true → protectedRoute s loc reqs = .loadingView)
    ∧ (s.loading = false → s.user = none →
        protectedRoute s loc reqs = .redirectLogin loc)
    ∧ (s.loading = false → s.user.isSome = true → reqs.requireAdmin = true →
        isAdmin s = false → protectedRoute s loc reqs = .deniedAdmin)
    ∧ (s.loading = false → s.user.isSome = true →
        (reqs.requireAdmin && !(isAdmin s)) = false →
        ∀ r, strTruthy reqs.requiredRole = some r → hasRole s r = false →
        protectedRoute s loc reqs = .deniedRole r)
    ∧ (s.loading = false → s.user.isSome = true →
        (reqs.requireAdmin && !(isAdmin s)) = false →
        (∀ r, strTruthy reqs.requiredRole = some r → hasRole s r = true) →
        ∀ p, strTruthy reqs.requiredPermission = some p →
        hasPermission s p = false →
        protectedRoute s loc reqs = .deniedPermission p)
    ∧ (s.loading = false → s.user.isSome = true →
        (reqs.requireAdmin && !(isAdmin s)) = false →
        (∀ r, strTruthy reqs.requiredRole = some r → hasRole s r = true) →
        (∀ p, strTruthy reqs.requiredPermission = some p →
          hasPermission s p = true) →
        protectedRoute s loc reqs = .content) := by
  refine ⟨?_, ?_, ?_, ?_, ?_, ?_⟩
  · intro hl
    simp [protectedRoute, hl]
  · intro hl hu
    simp [protectedRoute, hl, hu]
  · intro hl hu ha hna
    simp [protectedRoute, hl, Option.isNone_iff_eq_none, Option.isSome_iff_ne_none.mp hu,
      ha, hna]
  · intro hl hu hpass r hr hnr
    unfold protectedRoute roleCheck
    simp only [hl, if_false, Option.isNone_iff_eq_none, hpass,
      Option.isSome_iff_ne_none.mp hu, if_neg, hr, hnr]
    simp [Option.isSome_iff_ne_none.mp hu, hpass, hr, hnr]
  · intro hl hu hpass hrole p hp hnp
    unfold protectedRoute roleCheck permissionCheck
    simp only [hl, hpass]
    cases hr : strTruthy reqs.requiredRole with
    | none =>
      simp [Option.isSome_iff_ne_none.mp hu, hpass, hr, hp, hnp]
    | some r =>
      have := hrole r hr
      simp [Option.isSome_iff_ne_none.mp hu, hpass, hr, this, hp, hnp]
  · intro hl hu hpass hrole hperm
    unfold protectedRoute roleCheck permissionCheck
    simp only [hl, hpass]
    cases hr : strTruthy reqs.requiredRole with
    | none =>
      cases hp : strTruthy reqs.requiredPermission with
      | none => simp [Option.isSome_iff_ne_none.mp hu, hpass, hr, hp]
      | some p =>
        have := hperm p hp
        simp [Option.isSome_iff_ne_none.mp hu, hpass, hr, hp, this]
    | some r =>
      have hhr := hrole r hr
      cases hp : strTruthy reqs.requiredPermission with
      | none => simp [Option.isSome_iff_ne_none.mp hu, hpass, hr, hhr, hp]
      | some p =>
        have := hperm p hp
        simp [Option.isSome_iff_ne_none.mp hu, hpass, hr, hhr, hp, this]

/-- Witness for C3: an authenticated `Manager` with `requireAdmin = true`
and `requiredPermission = "x.y"` gets the admin denial, not the
permission-specific one. -/
theorem protectedRoute_first_match_wins_witness :
    protectedRoute sampleHydrated "/users" ⟨some "x.y", none, true⟩
      = .deniedAdmin :=
  (protectedRoute_first_match_wins sampleHydrated "/users"
    ⟨some "x.y", none, true⟩).2.2.1 (by decide) (by decide) rfl (by decide)

/-- C9: the API client returns a parsed 2xx envelope verbatim without
inspecting its `success` or `data` fields; every transport failure or
non-2xx status yields an error carrying a message; a 429 yields the
dedicated rate-limit message, which `handleRateLimit` classifies as the
distinct rate-limit toast, while messages not mentioning the rate limit get
the generic error toast. -/
theorem api_client_contract (T : Type) (r : ApiResponse T) (status : Nat)
    (stx m : String) (ef : Option String) (body : BodyParse T) :
    (statusOk status = true → request T (.reply status stx ef (.parsed r)) = .ok r)
    ∧ (request T (.netError m) = .error m)
    ∧ (statusOk status = false →
        ∃ em, request T (.reply status stx ef body) = .error em)
    ∧ (request T (.reply 429 stx ef body)
        = .error "Rate limit exceeded. Please try again later.")
    ∧ (handleRateLimit "Rate limit exceeded. Please try again later."
        = ⟨"Rate Limit Exceeded", "Please wait a moment before trying again."⟩)
    ∧ (strIncludes m "Rate limit" = false → handleRateLimit m = ⟨"Error", m⟩) := by
  refine ⟨?_, rfl, ?_, ?_, ?_, ?_⟩
  · intro hok
    simp [request, hok]
  · intro hbad
    unfold request
    simp only [hbad, Bool.false_eq_true, if_false]
    by_cases h429 : status == 429
    · exact ⟨_, by rw [if_pos h429]⟩
    · exact ⟨_, by rw [if_neg (by simpa using h429)]⟩
  · have h1 : statusOk 429 = false := by decide
    simp [request, h1]
  · decide
  · intro hni
    simp [handleRateLimit, hni]

/-- Witness for C9 at concrete inputs: a 200 envelope with `success:false`
is forwarded untouched, a 500 with an empty error body fails with the HTTP
fallback message, and that message is classified as the generic toast. -/
theorem api_client_contract_witness :
    request Unit (.reply 200 "OK" none
        (.parsed ⟨false, "/login", "bad credentials", none, none⟩))
      = .ok ⟨false, "/login", "bad credentials", none, none⟩
    ∧ (∃ em, request Unit (.reply 500 "Internal Server Error" none
        (.parsed (okEnv Unit none))) = .error em)
    ∧ handleRateLimit "HTTP 500: Internal Server Error"
      = ⟨"Error", "HTTP 500: Internal Server Error"⟩ := by
  refine ⟨?_, ?_, ?_⟩
  · exact (api_client_contract Unit ⟨false, "/login", "bad credentials", none, none⟩
      200 "OK" "m" none (.parsed (okEnv Unit none))).1 (by decide)
  · exact (api_client_contract Unit (okEnv Unit none) 500 "Internal Server Error"
      "m" none (.parsed (okEnv Unit none))).2.2.1 (by decide)
  · exact (api_client_contract Unit (okEnv Unit none) 500 "Internal Server Error"
      "HTTP 500: Internal Server Error" none (.parsed (okEnv Unit none))).2.2.2.2.2
      (by decide)

/-- C5: with a role selected and the assign permission held, one toggle
issues exactly one mutation — a revoke when the permission is currently in
the local assignment list (membership re-read from the state at toggle
time), a grant otherwise — followed, when the mutation resolves, by exactly
one refetch of that role's list; the local assignment list is never updated
optimistically: it is either untouched or replaced by exactly the refetched
rows.  Without the assign permission (or with no role selected) no call is
made. -/
theorem togglePermission_single_call (st : ScreenState) (pid : Nat)
    (mo : ApiOutcome Unit) (ro : ApiOutcome PermData)
    (hsel : st.selectedRole ≠ "") :
    ((togglePermission st true pid mo ro).2
      = (if hasRolePermission st pid
          then ApiCall.revokeRP (parseIntNat st.selectedRole) pid
          else ApiCall.grantRP (parseIntNat st.selectedRole) pid)
        :: (match mo with
            | .ok _ => [ApiCall.fetchRP st.selectedRole]
            | .error _ => []))
    ∧ ((togglePermission st true pid mo ro).1.rolePermissions
          = st.rolePermissions
        ∨ ∃ r rs, ro = .ok r ∧ r.success = true ∧ r.data = some (.rows rs)
            ∧ (togglePermission st true pid mo ro).1.rolePermissions = rs)
    ∧ (∀ mo2 ro2, togglePermission st false pid mo2 ro2 = (st, [])) := by
  have hbe : (st.selectedRole == "") = false := by
    simp [hsel]
  refine ⟨?_, ?_, ?_⟩
  · unfold togglePermission
    simp only [hbe, Bool.not_true, Bool.or_false, Bool.false_eq_true, if_false]
    cases mo with
    | error e => rfl
    | ok v => rfl
  · unfold togglePermission
    simp only [hbe, Bool.not_true, Bool.or_false, Bool.false_eq_true, if_false]
    cases mo with
    | error e => exact Or.inl rfl
    | ok v =>
      dsimp only
      unfold fetchRolePermissionsScreen
      cases ro with
      | error e2 => exact Or.inl rfl
      | ok r =>
        obtain ⟨su, rt, rm, d, re⟩ := r
        cases su with
        | false => exact Or.inl rfl
        | true =>
          cases d with
          | none => exact Or.inl rfl
          | some pd =>
            cases pd with
            | nonArray => exact Or.inl rfl
            | rows rs =>
              exact Or.inr ⟨⟨true, rt, rm, some (.rows rs), re⟩, rs,
                rfl, rfl, rfl, rfl⟩
  · intro mo2 ro2
    unfold togglePermission
    simp

/-- Witness for C5: on a screen showing role 3 with `user.read` (id 7)
assigned, toggling permission 7 issues exactly a revoke followed by a
refetch. -/
theorem togglePermission_single_call_witness :
    (togglePermission ⟨[], [samplePermission], [sampleRow], "3", []⟩ true 7
        (.ok (okEnv Unit none)) (.ok (okEnv PermData none))).2
      = [ApiCall.revokeRP (some 3) 7, ApiCall.fetchRP "3"] := by
  have h := (togglePermission_single_call
    ⟨[], [samplePermission], [sampleRow], "3", []⟩ 7
    (.ok (okEnv Unit none)) (.ok (okEnv PermData none)) (by decide)).1
  rw [h]
  decide

/-- C7 (counterexample): with an empty resolved permission set,
`hasPermission "permission.assign"` is false, yet the role-permission
matrix still renders the toggle checkbox for every listed permission — an
affordance depending on `permission.assign` is present in the render
output in a disabled state, not omitted. -/
theorem checkbox_present_when_unauthorized :
    hasPermission ⟨some sampleUser, [], false⟩ "permission.assign" = false
    ∧ rolePermissionsCheckboxes (fun _ => false) [samplePermission]
        = [⟨"permission.assign", true⟩]
    ∧ (⟨"permission.assign", true⟩ : Affordance)
        ∈ rolePermissionsCheckboxes (fun _ => false) [samplePermission] := by
  refine ⟨rfl, rfl, ?_⟩
  simp [rolePermissionsCheckboxes]

/-- Membership in a conditionally rendered singleton forces the condition
to hold and identifies the element. -/
theorem mem_gate {c : Bool} {x a : Affordance}
    (h : a ∈ (if c then [x] else [])) : c = true ∧ a = x := by
  by_cases hc : c = true
  · rw [if_pos hc] at h
    exact ⟨hc, List.mem_singleton.mp h⟩
  · rw [if_neg hc] at h
    exact absurd h (List.not_mem_nil a)

/-- C7 (amended): `hasPermission p` is false for every `p` outside the
resolved set; on the `Users`, `Roles` and `Permissions` list screens every
create/edit/delete affordance present in render output has its governing
permission granted and is enabled (failing checks omit the affordance); but
on the role-permission matrix the toggle checkboxes are always rendered
(one per listed permission), disabled exactly when `permission.assign` is
not held — disabled, not omitted. -/
theorem list_screen_gating (can : String → Bool) (rows : List User)
    (roleRows : List Role) (perms : List Permission) (s : AuthState)
    (p : String) :
    (p ∉ s.permissions → hasPermission s p = false)
    ∧ (∀ a ∈ usersPageAffordances can rows,
        can a.action = true ∧ a.isDisabled = false)
    ∧ (∀ a ∈ rolesPageAffordances can roleRows,
        can a.action = true ∧ a.isDisabled = false)
    ∧ (∀ a ∈ permissionsPageAffordances can perms,
        can a.action = true ∧ a.isDisabled = false)
    ∧ (∀ a ∈ rolePermissionsCheckboxes can perms,
        a.action = "permission.assign"
          ∧ a.isDisabled = !(can "permission.assign")) := by
  refine ⟨?_, ?_, ?_, ?_, ?_⟩
  · intro hnp
    simp [hasPermission]
    exact hnp
  · intro a ha
    unfold usersPageAffordances at ha
    rcases List.mem_append.mp ha with h1 | h2
    · by_cases hc : can "user.create" = true
      · simp only [hc, if_true, List.mem_singleton] at h1
        subst h1
        exact ⟨hc, rfl⟩
      · have hc2 : can "user.create" = false := by simpa using hc
        simp [hc2] at h1
    · rcases List.mem_flatMap.mp h2 with ⟨u, _, hm⟩
      by_cases hu : can "user.update" = true
      · by_cases hd : can "user.delete" = true
        · simp only [hu, hd, if_true, List.mem_append, List.mem_singleton] at hm
          rcases hm with (h | h) | h <;> (subst h; exact ⟨by simp [hu, hd], rfl⟩)
        · have hd2 : can "user.delete" = false := by simpa using hd
          simp only [hu, hd2, Bool.false_eq_true, if_true, if_false,
            List.append_nil, List.mem_append, List.mem_singleton] at hm
          rcases hm with h | h <;> (subst h; exact ⟨hu, rfl⟩)
      · have hu2 : can "user.update" = false := by simpa using hu
        by_cases hd : can "user.delete" = true
        · simp only [hu2, hd, Bool.false_eq_true, if_false, if_true,
            List.nil_append, List.mem_singleton] at hm
          subst hm
          exact ⟨hd, rfl⟩
        · have hd2 : can "user.delete" = false := by simpa using hd
          simp [hu2, hd2] at hm
  · intro a ha
    unfold rolesPageAffordances at ha
    rcases List.mem_append.mp ha with h1 | h2
    · obtain ⟨hc, rfl⟩ := mem_gate h1
      exact ⟨hc, rfl⟩
    · rcases List.mem_flatMap.mp h2 with ⟨r, _, hm⟩
      rcases List.mem_append.mp hm with h12 | h3
      · rcases List.mem_append.mp h12 with hx | hx <;>
          (obtain ⟨hc, rfl⟩ := mem_gate hx; exact ⟨hc, rfl⟩)
      · obtain ⟨hc, rfl⟩ := mem_gate h3
        exact ⟨(Bool.and_eq_true_iff.mp hc).1, rfl⟩
  · intro a ha
    unfold permissionsPageAffordances at ha
    rcases List.mem_append.mp ha with h1 | h2
    · obtain ⟨hc, rfl⟩ := mem_gate h1
      exact ⟨hc, rfl⟩
    · rcases List.mem_flatMap.mp h2 with ⟨q, _, hm⟩
      obtain ⟨hc, rfl⟩ := mem_gate hm
      exact ⟨hc, rfl⟩
  · intro a ha
    rcases List.mem_map.mp ha with ⟨q, _, hq⟩
    subst hq
    exact ⟨rfl, rfl⟩

/-- Witness for C7's amended theorem: with every permission granted, the
Users page's Add-User button, the Roles page's Delete item (on a
non-privileged role) and the Permissions page's Delete item are each
present with their governing permission granted; with none granted the
matrix checkbox is still present (disabled). -/
theorem list_screen_gating_witness :
    hasPermission initialAuthState "role.read" = false
    ∧ (fun _ => true) "user.create" = true
    ∧ (fun _ => true) "role.delete" = true
    ∧ (fun _ => true) "permission.delete" = true
    ∧ Affordance.action ⟨"permission.assign", true⟩ = "permission.assign" := by
  refine ⟨?_, ?_, ?_, ?_, ?_⟩
  · exact (list_screen_gating (fun _ => true) [] [] [] initialAuthState
      "role.read").1 (by decide)
  · exact ((list_screen_gating (fun _ => true) [sampleUser] [] []
      initialAuthState "role.read").2.1 ⟨"user.create", false⟩ (by decide)).1
  · exact ((list_screen_gating (fun _ => true) [] [sampleRole] []
      initialAuthState "role.read").2.2.1 ⟨"role.delete", false⟩ (by decide)).1
  · exact ((list_screen_gating (fun _ => true) [] [] [samplePermission]
      initialAuthState "role.read").2.2.2.1 ⟨"permission.delete", false⟩
      (by decide)).1
  · exact ((list_screen_gating (fun _ => false) [] [] [samplePermission]
      initialAuthState "role.read").2.2.2.2 ⟨"permission.assign", true⟩
      (by decide)).1

/-! ## The toggle round-trip (C6) -/

/-- Testing one permission id over the rows the backend lists for a role
agrees with the backend's own membership for that `(role, permission)`
pair. -/
theorem serverRows_any (sv : ServerState) (rid pid : Nat) :
    (serverRows sv rid).any (fun rp => rp.permission_id == pid)
      = serverHas sv rid pid := by
  obtain ⟨l⟩ := sv
  unfold serverRows serverHas
  dsimp only
  induction l with
  | nil => rfl
  | cons a t ih =>
    rw [List.filter_cons]
    by_cases h1 : (a.1 == rid) = true
    · rw [if_pos h1, List.map_cons, List.any_cons, ih, List.any_cons, h1,
        Bool.true_and]
      rfl
    · rw [if_neg h1, ih, List.any_cons]
      have h2 : (a.1 == rid) = false := by simpa using h1
      rw [h2, Bool.false_and, Bool.false_or]

/-- After a grant the backend holds the assignment. -/
theorem serverHas_grant (sv : ServerState) (rid pid : Nat) :
    serverHas (serverGrant sv rid pid) rid pid = true := by
  unfold serverGrant
  by_cases h : serverHas sv rid pid = true
  · rw [if_pos h]
    exact h
  · rw [if_neg h]
    unfold serverHas
    simp

/-- After a revoke the backend no longer holds the assignment. -/
theorem serverHas_revoke (sv : ServerState) (rid pid : Nat) :
    serverHas (serverRevoke sv rid pid) rid pid = false := by
  obtain ⟨l⟩ := sv
  unfold serverRevoke serverHas
  dsimp only
  induction l with
  | nil => rfl
  | cons a t ih =>
    rw [List.filter_cons]
    by_cases hp : (a.1 == rid && a.2 == pid) = true
    · simp only [hp, Bool.not_true, Bool.false_eq_true, if_false]
      exact ih
    · have hp2 : (a.1 == rid && a.2 == pid) = false := by simpa using hp
      simp only [hp2, Bool.not_false, if_true, List.any_cons, Bool.false_or]
      exact ih

/-- A resolved toggle whose refetch returns a successful row list ends with
exactly those rows in the local list and the permission id recorded in
`changes`. -/
theorem togglePermission_ok_state (st : ScreenState) (pid : Nat)
    (v : ApiResponse Unit) (rs : List RolePermission)
    (hsel : st.selectedRole ≠ "") :
    (togglePermission st true pid (.ok v)
        (.ok (okEnv PermData (some (.rows rs))))).1
      = { st with rolePermissions := rs,
                  changes := insertChange pid st.changes } := by
  have hbe : (st.selectedRole == "") = false := by simp [hsel]
  unfold togglePermission fetchRolePermissionsScreen okEnv
  simp only [hbe, Bool.not_true, Bool.or_false, Bool.false_eq_true, if_false]

/-- One fully resolved toggle round: the backend ends flipped for the
selected role's pair, and the screen ends resynchronized to the backend's
post-mutation rows with the selection unchanged. -/
theorem toggleRound_spec (sv : ServerState) (st : ScreenState) (rid pid : Nat)
    (hsel : st.selectedRole ≠ "") (hpar : parseIntNat st.selectedRole = some rid)
    (hsync : st.rolePermissions = serverRows sv rid) :
    (toggleRound sv st pid).1
      = (if serverHas sv rid pid then serverRevoke sv rid pid
         else serverGrant sv rid pid)
    ∧ (toggleRound sv st pid).2.rolePermissions
        = serverRows (toggleRound sv st pid).1 rid
    ∧ (toggleRound sv st pid).2.selectedRole = st.selectedRole := by
  have hbe : (st.selectedRole == "") = false := by simp [hsel]
  have hmem : hasRolePermission st pid = serverHas sv rid pid := by
    unfold hasRolePermission
    rw [hsync]
    exact serverRows_any sv rid pid
  unfold toggleRound
  simp only [hbe, Bool.false_eq_true, if_false, hpar, Option.getD_some, hmem]
  refine ⟨trivial, ?_, ?_⟩
  · rw [togglePermission_ok_state st pid (okEnv Unit none) _ hsel]
  · rw [togglePermission_ok_state st pid (okEnv Unit none) _ hsel]

/-- C6: starting from a screen whose assignment list agrees with the
backend for the selected role, two successive fully resolved toggles of the
same permission return both the backend's assignment and the screen's
displayed membership to their original state. -/
theorem toggle_twice_restores (sv : ServerState) (st : ScreenState)
    (rid pid : Nat) (hsel : st.selectedRole ≠ "")
    (hpar : parseIntNat st.selectedRole = some rid)
    (hsync : st.rolePermissions = serverRows sv rid) :
    serverHas (toggleRound (toggleRound sv st pid).1
        (toggleRound sv st pid).2 pid).1 rid pid
      = serverHas sv rid pid
    ∧ hasRolePermission (toggleRound (toggleRound sv st pid).1
        (toggleRound sv st pid).2 pid).2 pid
      = hasRolePermission st pid := by
  obtain ⟨h1, h2, h3⟩ := toggleRound_spec sv st rid pid hsel hpar hsync
  have hsel2 : (toggleRound sv st pid).2.selectedRole ≠ "" := by
    rw [h3]; exact hsel
  have hpar2 : parseIntNat (toggleRound sv st pid).2.selectedRole = some rid := by
    rw [h3]; exact hpar
  obtain ⟨g1, g2, g3⟩ := toggleRound_spec (toggleRound sv st pid).1
    (toggleRound sv st pid).2 rid pid hsel2 hpar2 h2
  have hmem : hasRolePermission st pid = serverHas sv rid pid := by
    unfold hasRolePermission
    rw [hsync]
    exact serverRows_any sv rid pid
  have hmem2 : hasRolePermission (toggleRound (toggleRound sv st pid).1
      (toggleRound sv st pid).2 pid).2 pid
      = serverHas (toggleRound (toggleRound sv st pid).1
          (toggleRound sv st pid).2 pid).1 rid pid := by
    unfold hasRolePermission
    rw [g2]
    exact serverRows_any _ rid pid
  by_cases hb : serverHas sv rid pid = true
  · have hv1 : (toggleRound sv st pid).1 = serverRevoke sv rid pid := by
      rw [h1, if_pos hb]
    have h1has : serverHas (toggleRound sv st pid).1 rid pid = false := by
      rw [hv1]
      exact serverHas_revoke sv rid pid
    have hv2 : (toggleRound (toggleRound sv st pid).1
        (toggleRound sv st pid).2 pid).1
        = serverGrant (toggleRound sv st pid).1 rid pid := by
      rw [g1, if_neg (by simp [h1has])]
    constructor
    · rw [hv2, serverHas_grant, hb]
    · rw [hmem2, hv2, serverHas_grant, hmem, hb]
  · have hb2 : serverHas sv rid pid = false := by simpa using hb
    have hv1 : (toggleRound sv st pid).1 = serverGrant sv rid pid := by
      rw [h1, if_neg (by simp [hb2])]
    have h1has : serverHas (toggleRound sv st pid).1 rid pid = true := by
      rw [hv1]
      exact serverHas_grant sv rid pid
    have hv2 : (toggleRound (toggleRound sv st pid).1
        (toggleRound sv st pid).2 pid).1
        = serverRevoke (toggleRound sv st pid).1 rid pid := by
      rw [g1, if_pos h1has]
    constructor
    · rw [hv2, serverHas_revoke, hb2]
    · rw [hmem2, hv2, serverHas_revoke, hmem, hb2]

/-- Witness for C6: role 3 initially holds permission 7; toggling twice
ends with the backend still holding it and the screen still showing it. -/
theorem toggle_twice_restores_witness :
    serverHas (toggleRound
        (toggleRound ⟨[(3, 7)]⟩ ⟨[], [samplePermission],
            serverRows ⟨[(3, 7)]⟩ 3, "3", []⟩ 7).1
        (toggleRound ⟨[(3, 7)]⟩ ⟨[], [samplePermission],
            serverRows ⟨[(3, 7)]⟩ 3, "3", []⟩ 7).2 7).1 3 7
      = serverHas ⟨[(3, 7)]⟩ 3 7
    ∧ hasRolePermission (toggleRound
        (toggleRound ⟨[(3, 7)]⟩ ⟨[], [samplePermission],
            serverRows ⟨[(3, 7)]⟩ 3, "3", []⟩ 7).1
        (toggleRound ⟨[(3, 7)]⟩ ⟨[], [samplePermission],
            serverRows ⟨[(3, 7)]⟩ 3, "3", []⟩ 7).2 7).2 7
      = hasRolePermission ⟨[], [samplePermission],
          serverRows ⟨[(3, 7)]⟩ 3, "3", []⟩ 7 :=
  toggle_twice_restores ⟨[(3, 7)]⟩
    ⟨[], [samplePermission], serverRows ⟨[(3, 7)]⟩ 3, "3", []⟩ 3 7
    (by decide) (by decide) rfl

end Placement
